import Mathlib

/-!
Verification development for the database-migration-app core: a shallow
embedding in Lean 4 of the migration pipeline's pure logic and of its
stateful operations as explicit state passing, with theorems settling the
spec claims about type mapping, backoff, batch upsert construction, the
scheduler's phases, and the error-resolution advisor.
-/

namespace Migration

/-! ### TypeMapper (src/database_connections.py and src/utils/helpers.py) -/

/-- Lower-case a string character by character, as Python `str.lower` does on
the ASCII identifiers used for SQL type names. -/
def pyLower (s : String) : String := String.mk (s.toList.map Char.toLower)

/-- The `type_mappings` dictionary of
`database_connections.map_mysql_type_to_postgresql`, as an association list. -/
def type_mappings : List (String × String) :=
  [("int", "INTEGER"),
   ("tinyint", "SMALLINT"),
   ("bigint", "BIGINT"),
   ("varchar", "VARCHAR"),
   ("text", "TEXT"),
   ("double", "DOUBLE PRECISION"),
   ("decimal", "NUMERIC"),
   ("datetime", "TIMESTAMP"),
   ("timestamp", "TIMESTAMP"),
   ("date", "DATE"),
   ("blob", "BYTEA")]

/-- `database_connections.map_mysql_type_to_postgresql`: looks up the
lower-cased type string in `type_mappings`, falling back to TEXT.  Note that
the source performs no stripping of a parameter list before the lookup. -/
def map_mysql_type_to_postgresql (mysql_type : String) : String :=
  ((type_mappings.lookup (pyLower mysql_type)).getD "TEXT")

/-- The `MYSQL_TO_POSTGRES_TYPES` dictionary of `utils/constants.py`. -/
def MYSQL_TO_POSTGRES_TYPES : List (String × String) :=
  [("int", "INTEGER"),
   ("smallint", "SMALLINT"),
   ("bigint", "BIGINT"),
   ("tinyint", "SMALLINT"),
   ("mediumint", "INTEGER"),
   ("float", "REAL"),
   ("double", "DOUBLE PRECISION"),
   ("decimal", "NUMERIC"),
   ("varchar", "VARCHAR"),
   ("char", "CHAR"),
   ("text", "TEXT"),
   ("tinytext", "TEXT"),
   ("mediumtext", "TEXT"),
   ("longtext", "TEXT"),
   ("blob", "BYTEA"),
   ("tinyblob", "BYTEA"),
   ("mediumblob", "BYTEA"),
   ("longblob", "BYTEA"),
   ("datetime", "TIMESTAMP"),
   ("timestamp", "TIMESTAMP"),
   ("date", "DATE"),
   ("time", "TIME"),
   ("enum", "TEXT"),
   ("set", "TEXT"),
   ("json", "JSON")]

/-- Python `mysql_type.split('(')[0]`: the characters before the first
opening parenthesis (the whole string when there is none). -/
def splitBeforeParen (s : String) : String :=
  String.mk (s.toList.takeWhile (fun c => c ≠ '('))

/-- `utils/helpers.map_mysql_to_postgres_type`: strips any parameter list,
lower-cases, looks up in `MYSQL_TO_POSTGRES_TYPES`, falling back to TEXT. -/
def map_mysql_to_postgres_type (mysql_type : String) : String :=
  let base_type := pyLower (splitBeforeParen mysql_type)
  (MYSQL_TO_POSTGRES_TYPES.lookup base_type).getD "TEXT"

/-! ### RetryPolicy (src/error_handling.py and src/utils/helpers.py)

Both backoff functions are embedded as pure functions over `ℚ`; the call to
`random.uniform(0.8, 1.2)` is modelled by an explicit parameter `u`, and the
`time.sleep` side effect by a returned trace listing the durations slept. -/

/-- `error_handling.exponential_backoff`: computes
`min(max_delay, base ** attempt)`, optionally multiplied by the jitter factor
`u`, and returns it.  The function contains no `time.sleep`, so its sleep
trace is empty. -/
def exponential_backoff_eh (attempt : ℕ) (base max_delay : ℚ) (jitter : Bool)
    (u : ℚ) : ℚ × List ℚ :=
  let delay := min max_delay (base ^ attempt)
  let delay := if jitter then delay * u else delay
  (delay, [])

/-- `utils/helpers.exponential_backoff`: computes the same delay as
`exponential_backoff_eh` but then calls `time.sleep(delay)` before returning
it, recorded here as a singleton sleep trace. -/
def exponential_backoff_helpers (attempt : ℕ) (base max_delay : ℚ)
    (jitter : Bool) (u : ℚ) : ℚ × List ℚ :=
  let delay := min max_delay (base ^ attempt)
  let delay := if jitter then delay * u else delay
  (delay, [delay])

/-! ### BatchUpsertEngine (src/migration_operations.py, merge_and_update_data)

The query construction (lines 34-55 of the source) is embedded as data: the
column list of the first batch row plus the synthetic `insert_date`, and the
`ON CONFLICT` clause, present exactly when `unique_cols` is truthy, whose
`SET` list assigns `col = EXCLUDED.col` for `col` ranging over the whole
column list. -/

/-- The `ON CONFLICT ... DO UPDATE SET ...` clause: the conflict-target
columns and the columns assigned `col = EXCLUDED.col` in the SET list. -/
structure ConflictClause where
  conflictCols : List String
  setCols : List String
deriving DecidableEq, Repr

/-- The upsert statement built for one batch: target table, inserted field
list, and the optional conflict clause. -/
structure InsertQuery where
  table : String
  fields : List String
  conflict : Option ConflictClause
deriving DecidableEq, Repr

/-- Python truthiness of the `unique_cols` argument (`None` and `[]` are
falsy). -/
def truthyCols : Option (List String) → Bool
  | none => false
  | some [] => false
  | some (_ :: _) => true

/-- Lines 34-55 of `merge_and_update_data`: the columns are the batch's row
keys with `insert_date` appended; when `unique_cols` is truthy the conflict
action targets `unique_cols` and its SET list ranges over `columns` (the
full list, `insert_date` included); otherwise no conflict action. -/
def build_upsert_query (pg_table : String) (rowCols : List String)
    (unique_cols : Option (List String)) : InsertQuery :=
  let columns := rowCols ++ ["insert_date"]
  let conflict_action : Option ConflictClause :=
    if truthyCols unique_cols then
      some ⟨unique_cols.getD [], columns⟩
    else
      none
  { table := pg_table, fields := columns, conflict := conflict_action }

/-! #### The batch loop (lines 20-69)

`merge_and_update_data` reads all source rows, returns at once when there
are none, otherwise slices `rows[i:i+batch_size]` for
`i = 0, batch_size, 2*batch_size, ...`, and for each slice executes and
commits one statement; the first failing batch rolls back, logs an error
naming the source table, and re-raises.  The database interaction is
modelled by an oracle `failAt : ℕ → Bool` saying whether executing batch
`i` raises. -/

/-- The slices `rows[i:i+batch_size]` produced by
`for i in range(0, len(rows), batch_size)`.  `batch_size = 0` is
unreachable in the source (Python `range` rejects a zero step) and is
mapped to the empty slicing. -/
def chunkRows (batch_size : ℕ) : List α → List (List α)
  | [] => []
  | a :: l =>
    if _h : batch_size = 0 then []
    else
      (a :: l).take batch_size ::
        chunkRows batch_size ((a :: l).drop batch_size)
termination_by l => l.length
decreasing_by
  simp only [List.length_drop, List.length_cons]
  omega

/-- Final outcome of a merge run: normal return, or the exception raised by
batch `i` propagating to the caller. -/
inductive MergeOutcome
  | ok
  | raised (i : ℕ)
deriving DecidableEq, Repr

/-- Outcome of one `merge_and_update_data` run: the batches committed (in
order), the 0-based indices of the batches whose statement was executed (in
order), the final outcome (`ok` or the index of the failing batch as the
propagated cause), and the source table named by the error log, when any. -/
structure MergeRun (α : Type) where
  committed : List (List α)
  attempted : List ℕ
  result : MergeOutcome
  errorLoggedTable : Option String
deriving DecidableEq, Repr

/-- The batch loop of lines 31-64: executes batch `i`, and either commits it
and continues, or (when `failAt i`) rolls the uncommitted batch back and
stops with the error propagated and logged against `mysql_table`. -/
def runBatchLoop (mysql_table : String) (failAt : ℕ → Bool) :
    List (List α) → ℕ → List (List α) → List ℕ → MergeRun α
  | [], _, committed, attempted =>
    { committed := committed, attempted := attempted,
      result := .ok, errorLoggedTable := none }
  | b :: rest, i, committed, attempted =>
    if failAt i then
      { committed := committed, attempted := attempted ++ [i],
        result := .raised i, errorLoggedTable := some mysql_table }
    else
      runBatchLoop mysql_table failAt rest (i + 1) (committed ++ [b])
        (attempted ++ [i])

/-- `merge_and_update_data` (lines 20-69): reads all rows, returns success
immediately with nothing executed when there are none, otherwise runs the
batch loop over the `batch_size`-slices of the rows. -/
def merge_and_update_data (mysql_table : String) (rows : List α)
    (batch_size : ℕ) (failAt : ℕ → Bool) : MergeRun α :=
  match rows with
  | [] =>
    { committed := [], attempted := [], result := .ok,
      errorLoggedTable := none }
  | _ :: _ =>
    runBatchLoop mysql_table failAt (chunkRows batch_size rows) 0 [] []

/-! ### ConcurrentMigrationScheduler (src/multi_threading.py)

The thread pool completes futures in a nondeterministic order, but every
claim about the scheduler concerns membership in the shared `failed_tables`
list and which tables have `merge_and_update_data` attempted, both of which
are order-insensitive; the phases are embedded as folds over the submitted
table list, with per-table success given by oracles `prepOk` and
`mergeOk`. -/

/-- `create_pg_tables` (lines 28-38): submits `ensure_table_exists` for every
table and appends each table whose preparation raised to the shared
`failed_tables` list. -/
def create_pg_tables (prepOk : String → Bool) (tables : List String)
    (failed_tables : List String) : List String :=
  tables.foldl
    (fun failed t => if prepOk t then failed else failed ++ [t])
    failed_tables

/-- `migrate_single_table` (lines 45-63): calls `merge_and_update_data` for
its table, and on failure appends the table to `failed_tables`.  Returns the
updated failure list and the list of tables for which a merge was attempted
(the function always attempts the merge for its argument). -/
def migrate_single_table (mergeOk : String → Bool)
    (failed_tables : List String) (mergeAttempts : List String)
    (table_name : String) : List String × List String :=
  let mergeAttempts := mergeAttempts ++ [table_name]
  if mergeOk table_name then (failed_tables, mergeAttempts)
  else (failed_tables ++ [table_name], mergeAttempts)

/-- Lines 66-76: the migration phase submits `migrate_single_table` for
every table of the input list (the comprehension `for table in tables`
ranges over all requested tables, with no exclusion of those recorded in
`failed_tables` by the preparation phase). -/
def migration_phase (mergeOk : String → Bool) (tables : List String)
    (failed_tables : List String) : List String × List String :=
  tables.foldl
    (fun acc t => migrate_single_table mergeOk acc.1 acc.2 t)
    (failed_tables, [])

/-- Phases 1-2 of `multi_threaded_migration` (lines 25-76): the failure list
after preparation, and the failure list plus merge-attempt list after the
migration phase. -/
def multi_threaded_migration_phases (prepOk mergeOk : String → Bool)
    (tables : List String) :
    List String × List String × List String :=
  let failedAfterPrep := create_pg_tables prepOk tables []
  let afterMigration := migration_phase mergeOk tables failedAfterPrep
  (failedAfterPrep, afterMigration.1, afterMigration.2)

/-! ### The retry phase call site (src/multi_threading.py, line 93)

`retry_failed_tables` invokes
`retry_migration_operation(table_name, mysql_config, postgres_config,
schema_name, retries)` positionally, while `error_handling.py` declares
`retry_migration_operation(mysql_conn, pg_conn, table_name, schema_name,
retries=3)`.  The binding of actual arguments to formal parameters is
embedded as data so the transposition can be stated. -/

/-- A Python value as seen at this call boundary: a string (table or schema
name) or one of the two configuration dictionaries. -/
inductive PyVal
  | str (s : String)
  | mysqlConfig
  | postgresConfig
deriving DecidableEq, Repr

/-- The formal parameters of `error_handling.retry_migration_operation`. -/
structure RetryMigrationArgs where
  mysql_conn : PyVal
  pg_conn : PyVal
  table_name : PyVal
  schema_name : PyVal
  retries : ℕ
deriving DecidableEq, Repr

/-- The positional call on line 93 of `multi_threading.py`:
`retry_migration_operation(table_name, mysql_config, postgres_config,
schema_name, retries)`, matched left to right against the formal parameter
list `(mysql_conn, pg_conn, table_name, schema_name, retries)`. -/
def retry_failed_tables_call (table_name mysql_config postgres_config
    schema_name : PyVal) (retries : ℕ) : RetryMigrationArgs :=
  { mysql_conn := table_name,
    pg_conn := mysql_config,
    table_name := postgres_config,
    schema_name := schema_name,
    retries := retries }

/-- Line 144 of `error_handling.py`: inside `retry_migration_operation` the
table handed to `merge_and_update_data` (as both source and target) is the
`table_name` parameter. -/
def retry_migration_operation_mergedTable (args : RetryMigrationArgs) :
    PyVal :=
  args.table_name

/-! ### SchemaReconciler (src/migration_operations.py and
src/database_connections.py)

The target catalog is modelled by the set of existing tables and the set of
existing constraint names; the target engine's documented reactions
("object already exists" surfaces as an error on `ADD CONSTRAINT`, while
`CREATE TABLE IF NOT EXISTS` never raises for an existing table) follow the
external target-store contract of spec section 6. -/

/-- The target catalog state: names of existing tables and of existing
constraints (PostgreSQL constraint names share one catalog per schema). -/
structure Catalog where
  tables : List String
  constraints : List String
deriving DecidableEq, Repr

/-- Result of a catalog-changing operation: the new state, or a raised
error message after rollback (the state is then unchanged). -/
inductive DdlResult
  | ok (cat : Catalog)
  | raised (msg : String)
deriving DecidableEq, Repr

/-- `database_connections.check_table_exists`: membership of the table name
in the catalog (the source compares lower-cased names; names are taken
already canonical here). -/
def check_table_exists (cat : Catalog) (table_name : String) : Bool :=
  cat.tables.contains table_name

/-- `database_connections.create_postgresql_table` (lines 101-124): issues
`CREATE TABLE IF NOT EXISTS`, so an existing table leaves the catalog
unchanged and never raises; otherwise the table is added. -/
def create_postgresql_table (cat : Catalog) (table_name : String) : Catalog :=
  if cat.tables.contains table_name then cat
  else { cat with tables := table_name :: cat.tables }

/-- `migration_operations.add_unique_constraint` (lines 94-117): issues
`ALTER TABLE ... ADD CONSTRAINT {table}_unique_constraint UNIQUE (...)`
unconditionally; the target engine raises a duplicate-object error when a
constraint of that name already exists, which the source rolls back and
re-raises. -/
def add_unique_constraint (cat : Catalog) (table_name : String) : DdlResult :=
  let unique_constraint_name := table_name ++ "_unique_constraint"
  if cat.constraints.contains unique_constraint_name then
    .raised ("constraint " ++ unique_constraint_name ++ " already exists")
  else
    .ok { cat with constraints := unique_constraint_name :: cat.constraints }

/-- Lines 82-87 of `migration_operations.ensure_pg_table_created`: the
catalog after the existence check and the conditional `CREATE TABLE`. -/
def ensure_created_catalog (cat : Catalog) (pg_table : String) : Catalog :=
  if check_table_exists cat pg_table then cat
  else create_postgresql_table cat pg_table

/-- `migration_operations.ensure_pg_table_created` (lines 72-91): checks
existence, creates the table when absent, then — whenever `unique_cols` is
truthy — calls `add_unique_constraint` with no check that the constraint is
already present. -/
def ensure_pg_table_created (cat : Catalog) (pg_table : String)
    (unique_cols : Option (List String)) : DdlResult :=
  let cat := ensure_created_catalog cat pg_table
  if truthyCols unique_cols then add_unique_constraint cat pg_table
  else .ok cat

/-! ### ErrorResolutionAdvisor (src/error_handling.py)

`extract_missing_column_from_error` runs
`re.search(r"column [\"'](.*?)[\"'] does not exist", msg, re.IGNORECASE)`:
leftmost match, non-greedy group, case-insensitive literals, `.` not
matching a newline.  The matcher is embedded over `List Char` with exactly
those semantics. -/

/-- The double-quote character. -/
def dquote : Char := Char.ofNat 34

/-- The single-quote character. -/
def squote : Char := Char.ofNat 39

/-- The newline character, which `.` does not match. -/
def newlineChar : Char := Char.ofNat 10

/-- The character class `[\"']` of the pattern. -/
def isQuoteChar (c : Char) : Bool := c = dquote || c = squote

/-- The literal `column ` of the pattern. -/
def COLUMN_LIT : List Char := "column ".toList

/-- The literal ` does not exist` of the pattern. -/
def DNE_LIT : List Char := " does not exist".toList

/-- Case-insensitive test that `l` starts with the (already lower-case)
literal `patt`, as `re.IGNORECASE` matches literals. -/
def ciStartsWith : List Char → List Char → Bool
  | _, [] => true
  | [], _ :: _ => false
  | c :: cs, p :: ps => (c.toLower == p) && ciStartsWith cs ps

/-- The non-greedy group `(.*?)` followed by `[\"'] does not exist`: scans
forward, ending the group at the first quote character that is followed by
the ` does not exist` literal; `.` accepts any character but a newline. -/
def findGroup : List Char → Option (List Char)
  | [] => none
  | c :: cs =>
    if isQuoteChar c && ciStartsWith cs DNE_LIT then some []
    else if c = newlineChar then none
    else (findGroup cs).map (fun g => c :: g)

/-- Attempt to match the whole pattern at the head of `l`: the literal
`column ` (7 characters), one quote character, then the non-greedy group. -/
def matchAt (l : List Char) : Option (List Char) :=
  if ciStartsWith l COLUMN_LIT then
    match l.drop 7 with
    | [] => none
    | c :: cs => if isQuoteChar c then findGroup cs else none
  else none

/-- `re.search`: try the pattern at each position from the left and return
the first match's group. -/
def searchMissingColumn : List Char → Option (List Char)
  | [] => none
  | c :: cs =>
    match matchAt (c :: cs) with
    | some g => some g
    | none => searchMissingColumn cs

/-- `error_handling.extract_missing_column_from_error` (lines 104-112):
`match.group(1)` when the pattern matches, `None` otherwise. -/
def extract_missing_column_from_error (error_message : String) :
    Option String :=
  (searchMissingColumn error_message.toList).map String.mk

/-- A source column definition as returned by `SHOW COLUMNS`: name, type,
nullability and default. -/
structure MySQLColumn where
  name : String
  colType : String
  nullable : Bool
  defaultVal : Option String
deriving DecidableEq, Repr

/-- A DDL action issued against the target by the missing-column handler. -/
inductive ColumnAction
  | addColumn (c : MySQLColumn)
deriving DecidableEq, Repr

/-- `SHOW COLUMNS FROM table LIKE 'name'` (line 94): the definition of the
named column in the source table, when present. -/
def fetch_column_info (sourceCols : List MySQLColumn) (colName : String) :
    Option MySQLColumn :=
  sourceCols.find? (fun c => c.name = colName)

/-- `error_handling.handle_missing_column` (lines 76-101): extracts the
column name from the error message; when one is found and the source table
has that column, invokes `add_column_to_postgresql` for it; otherwise only
logs and issues no DDL. -/
def handle_missing_column (sourceCols : List MySQLColumn)
    (error_message : String) : List ColumnAction :=
  match extract_missing_column_from_error error_message with
  | some missing_column =>
    match fetch_column_info sourceCols missing_column with
    | some column_info => [ColumnAction.addColumn column_info]
    | none => []
  | none => []

/-! ### resolve_error_based_on_choice (src/error_handling.py, lines 13-52)

The five remediation handlers are modelled by an oracle giving, for each
choice, the error the handler raises (`none` when it returns normally);
choice 3 (skip the table) only logs and cannot raise.  The `try`/`except`
block is embedded as the log trace plus outcome. -/

/-- A log record relevant to the advisor: an informational line, or the
`logging.error` line of the `except` block naming the table and schema. -/
inductive LogEntry
  | info (msg : String)
  | resolutionFailed (table_name schema_name err : String)
deriving DecidableEq, Repr

/-- Outcome of `resolve_error_based_on_choice`: a normal return, or an
exception re-raised to the caller. -/
inductive ResolveOutcome
  | returned
  | raised (err : String)
deriving DecidableEq, Repr

/-- The dispatch of lines 40-49: choices 0, 1, 2 and 4 run their handler
(which may raise); choice 3 only writes a log line and returns. -/
def runChoice (choice : Fin 5) (handler : Fin 5 → Option String) :
    Option String :=
  if choice.val = 3 then none else handler choice

/-- `resolve_error_based_on_choice`: `None` from the prompt returns after an
informational log; otherwise the chosen action runs inside `try`, and any
exception it raises is logged with the table and schema context and
re-raised unchanged. -/
def resolve_error_based_on_choice (table_name schema_name : String)
    (user_choice : Option (Fin 5)) (handler : Fin 5 → Option String) :
    List LogEntry × ResolveOutcome :=
  match user_choice with
  | none => ([.info "Error resolution was skipped by user."], .returned)
  | some choice =>
    match runChoice choice handler with
    | none => ([], .returned)
    | some e => ([.resolutionFailed table_name schema_name e], .raised e)

/-! ### Target-store insert semantics (spec section 6)

For the uniqueness behaviour of a statement without a conflict clause, the
target store's contract (section 6: it "must surface ... a constraint
violation") is modelled on a single conflict-target key. -/

/-- Result of executing one row insert against a table that enforces a
uniqueness constraint on the conflict-target key. -/
inductive InsertResult
  | inserted (keys : List String)
  | updated (keys : List String)
  | uniqueViolation
deriving DecidableEq, Repr

/-- Modelled from the spec: target-store contract of section 6 for a table
with a uniqueness constraint on the key.  A statement carrying
`ON CONFLICT ... DO UPDATE` updates the existing row in place; a statement
without a conflict clause raises a constraint violation on a duplicate key
instead of inserting a second row. -/
def execute_insert (conflict : Option ConflictClause)
    (existingKeys : List String) (k : String) : InsertResult :=
  if existingKeys.contains k then
    match conflict with
    | some _ => .updated existingKeys
    | none => .uniqueViolation
  else .inserted (k :: existingKeys)

/-! ## Theorems settling the claims -/

/-- Claim C6, counterexample: `database_connections.map_mysql_type_to_postgresql`
does not strip a parameter list before its lookup, so `VARCHAR(255)` maps to
the TEXT fallback, not to the varchar target type as the claim states. -/
theorem C6_counterexample :
    map_mysql_type_to_postgresql "VARCHAR(255)" = "TEXT" ∧
    ("TEXT" : String) ≠ "VARCHAR" := by
  constructor
  · decide
  · decide

/-- Claim C6 (amended): both type mappers are pure total deterministic
functions with the TEXT fallback for unknown keys; the helper
`utils/helpers.map_mysql_to_postgres_type` strips any parameter list before
the lower-cased lookup (so `VARCHAR(255)` keys as `varchar` and maps to
VARCHAR), but `database_connections.map_mysql_type_to_postgresql` — the one
used when creating tables — lower-cases without stripping, so a
parameterised type such as `VARCHAR(255)` falls to the TEXT fallback. -/
theorem C6_type_mapper_amended :
    map_mysql_to_postgres_type "VARCHAR(255)" = "VARCHAR" ∧
    map_mysql_type_to_postgresql "VARCHAR(255)" = "TEXT" ∧
    (∀ t : String, type_mappings.lookup (pyLower t) = none →
      map_mysql_type_to_postgresql t = "TEXT") ∧
    (∀ t : String,
      MYSQL_TO_POSTGRES_TYPES.lookup (pyLower (splitBeforeParen t)) = none →
      map_mysql_to_postgres_type t = "TEXT") := by
  refine ⟨by decide, by decide, ?_, ?_⟩ <;> intro t h <;>
    simp [map_mysql_type_to_postgresql, map_mysql_to_postgres_type, h]

/-- Claim C6, witness: the amended theorem evaluated at the unmapped source
types `geometry` and `geometry(Point)`. -/
theorem C6_type_mapper_witness :
    map_mysql_type_to_postgresql "geometry" = "TEXT" ∧
    map_mysql_to_postgres_type "geometry(Point)" = "TEXT" :=
  ⟨C6_type_mapper_amended.2.2.1 "geometry" (by decide),
   C6_type_mapper_amended.2.2.2 "geometry(Point)" (by decide)⟩

/-- Claim C7, counterexample: the backoff function of `utils/helpers.py`
(one of the two implementations the claim describes) calls
`time.sleep(delay)` itself, so the delay computation is not free of
waiting: at attempt 0 its sleep trace holds the computed delay. -/
theorem C7_counterexample :
    (exponential_backoff_helpers 0 2 60 true 1).2 = [(1 : ℚ)] ∧
    ([(1 : ℚ)] : List ℚ) ≠ [] := by
  constructor
  · simp [exponential_backoff_helpers]
  · simp

/-- Claim C7 (amended): for every attempt `a`, both backoff implementations
return exactly `min(60, 2^a)` with jitter disabled, and with jitter enabled
a value in `[0.8 * min(60, 2^a), 1.2 * min(60, 2^a)]` (the jitter factor
`u` drawn from `[0.8, 1.2]`); `error_handling.exponential_backoff` performs
no waiting, while `utils/helpers.exponential_backoff` additionally sleeps
for the computed delay before returning it. -/
theorem C7_backoff_amended (a : ℕ) (u : ℚ)
    (h1 : 4 / 5 ≤ u) (h2 : u ≤ 6 / 5) :
    (exponential_backoff_eh a 2 60 false u).1 = min 60 (2 ^ a) ∧
    (exponential_backoff_helpers a 2 60 false u).1 = min 60 (2 ^ a) ∧
    4 / 5 * min 60 (2 ^ a) ≤ (exponential_backoff_eh a 2 60 true u).1 ∧
    (exponential_backoff_eh a 2 60 true u).1 ≤ 6 / 5 * min 60 (2 ^ a) ∧
    (exponential_backoff_helpers a 2 60 true u).1 =
      (exponential_backoff_eh a 2 60 true u).1 ∧
    (exponential_backoff_eh a 2 60 true u).2 = [] ∧
    (exponential_backoff_helpers a 2 60 true u).2 =
      [(exponential_backoff_helpers a 2 60 true u).1] := by
  have hd : (0 : ℚ) ≤ min 60 (2 ^ a) :=
    le_min (by norm_num) (pow_nonneg (by norm_num) a)
  refine ⟨rfl, rfl, ?_, ?_, rfl, rfl, rfl⟩
  · calc 4 / 5 * min 60 (2 ^ a) = min 60 (2 ^ a) * (4 / 5) := by ring
    _ ≤ min 60 (2 ^ a) * u := mul_le_mul_of_nonneg_left h1 hd
    _ = (exponential_backoff_eh a 2 60 true u).1 := rfl
  · calc (exponential_backoff_eh a 2 60 true u).1
        = min 60 (2 ^ a) * u := rfl
    _ ≤ min 60 (2 ^ a) * (6 / 5) := mul_le_mul_of_nonneg_left h2 hd
    _ = 6 / 5 * min 60 (2 ^ a) := by ring

/-- Claim C7, witness: the amended theorem evaluated at attempt 0 with
jitter factor 1. -/
theorem C7_backoff_witness :
    (exponential_backoff_eh 0 2 60 false 1).1 = min 60 (2 ^ 0) ∧
    (exponential_backoff_helpers 0 2 60 false 1).1 = min 60 (2 ^ 0) ∧
    4 / 5 * min 60 (2 ^ 0) ≤ (exponential_backoff_eh 0 2 60 true 1).1 ∧
    (exponential_backoff_eh 0 2 60 true 1).1 ≤ 6 / 5 * min 60 (2 ^ 0) ∧
    (exponential_backoff_helpers 0 2 60 true 1).1 =
      (exponential_backoff_eh 0 2 60 true 1).1 ∧
    (exponential_backoff_eh 0 2 60 true (1 : ℚ)).2 = [] ∧
    (exponential_backoff_helpers 0 2 60 true (1 : ℚ)).2 =
      [(exponential_backoff_helpers 0 2 60 true 1).1] :=
  C7_backoff_amended 0 1 (by norm_num) (by norm_num)

/-- Claim C1, counterexample: with `unique_cols = ["id"]` and row columns
`["id", "val"]`, the generated `DO UPDATE SET` list is the full column list
`["id", "val", "insert_date"]` — it contains the key column `id` and so is
not exactly the non-key columns `["val", "insert_date"]` the claim
states. -/
theorem C1_counterexample :
    (build_upsert_query "t" ["id", "val"] (some ["id"])).conflict =
      some ⟨["id"], ["id", "val", "insert_date"]⟩ ∧
    "id" ∈ (["id", "val", "insert_date"] : List String) ∧
    (["id", "val", "insert_date"] : List String) ≠ ["val", "insert_date"] := by
  decide

/-- Claim C1 (amended): with a non-empty `unique_cols` each batch statement
carries `ON CONFLICT (unique_cols) DO UPDATE` whose SET list assigns every
column — the key columns as well as the non-key ones, with the synthetic
`insert_date` — to the incoming value; with `unique_cols` empty or absent no
conflict clause is attached, so re-running on unchanged data against a
uniqueness constraint raises a conflict error rather than silently
duplicating rows. -/
theorem C1_upsert_conflict_amended (pg_table : String)
    (rowCols : List String) (l : List String) (hl : l ≠ []) :
    (build_upsert_query pg_table rowCols (some l)).conflict =
      some ⟨l, rowCols ++ ["insert_date"]⟩ ∧
    (build_upsert_query pg_table rowCols none).conflict = none ∧
    (build_upsert_query pg_table rowCols (some [])).conflict = none ∧
    ∀ (keys : List String) (k : String), keys.contains k = true →
      execute_insert none keys k = .uniqueViolation := by
  obtain ⟨c, cs, rfl⟩ := List.exists_cons_of_ne_nil hl
  refine ⟨rfl, rfl, rfl, ?_⟩
  intro keys k hk
  unfold execute_insert
  rw [if_pos hk]

/-- Claim C1, witness: the amended theorem evaluated on a two-column row
with unique key `id`, and the no-conflict-clause insert evaluated on a
duplicate key. -/
theorem C1_upsert_conflict_witness :
    (build_upsert_query "t" ["id", "val"] (some ["id"])).conflict =
      some ⟨["id"], ["id", "val", "insert_date"]⟩ ∧
    execute_insert none ["k1"] "k1" = .uniqueViolation :=
  ⟨(C1_upsert_conflict_amended "t" ["id", "val"] ["id"] (by decide)).1,
   (C1_upsert_conflict_amended "t" ["id", "val"] ["id"] (by decide)).2.2.2
     ["k1"] "k1" (by decide)⟩

/-- Claim C4, code bug: `retry_failed_tables` (multi_threading.py line 93)
passes `(table_name, mysql_config, postgres_config, schema_name, retries)`
positionally into `retry_migration_operation(mysql_conn, pg_conn,
table_name, schema_name, retries)`, so the failed table's name is bound to
the MySQL-connection parameter and the PostgreSQL configuration object to
the table-name parameter: the table the retry hands to
`merge_and_update_data` is never the failed table. -/
theorem C4_retry_argument_transposition :
    (retry_failed_tables_call (PyVal.str "orders") PyVal.mysqlConfig
        PyVal.postgresConfig (PyVal.str "public") 3).mysql_conn =
      PyVal.str "orders" ∧
    retry_migration_operation_mergedTable
        (retry_failed_tables_call (PyVal.str "orders") PyVal.mysqlConfig
          PyVal.postgresConfig (PyVal.str "public") 3) =
      PyVal.postgresConfig ∧
    PyVal.postgresConfig ≠ PyVal.str "orders" := by
  decide

/-- Claim C5, counterexample: starting from an empty catalog, the first
`ensure_pg_table_created` with unique columns succeeds, but the second call
with exactly the same arguments raises, because `add_unique_constraint` is
issued unconditionally and the constraint already exists. -/
theorem C5_counterexample :
    ensure_pg_table_created ⟨[], []⟩ "t" (some ["id"]) =
      .ok ⟨["t"], ["t_unique_constraint"]⟩ ∧
    ensure_pg_table_created ⟨["t"], ["t_unique_constraint"]⟩ "t"
        (some ["id"]) =
      .raised "constraint t_unique_constraint already exists" := by
  decide

/-- A catalog already holding the table is left unchanged by the existence
check plus conditional creation. -/
lemma ensure_created_catalog_of_contains (cat : Catalog) (t : String)
    (h : cat.tables.contains t = true) : ensure_created_catalog cat t = cat := by
  unfold ensure_created_catalog check_table_exists
  rw [if_pos h]

/-- After the existence check and conditional creation, the table is in the
catalog. -/
lemma ensure_created_catalog_contains (cat : Catalog) (t : String) :
    (ensure_created_catalog cat t).tables.contains t = true := by
  unfold ensure_created_catalog check_table_exists create_postgresql_table
  by_cases h : cat.tables.contains t = true
  · rw [if_pos h]
    exact h
  · rw [if_neg h, if_neg h]
    simp [List.contains_cons]

/-- `ensure_pg_table_created` with truthy unique columns reduces to the
unconditional `add_unique_constraint` on the ensured catalog. -/
lemma ensure_pg_table_created_truthy (cat : Catalog) (t : String)
    (l : List String) (h : truthyCols (some l) = true) :
    ensure_pg_table_created cat t (some l) =
      add_unique_constraint (ensure_created_catalog cat t) t := by
  unfold ensure_pg_table_created
  rw [h]
  simp

/-- `add_unique_constraint` raises the duplicate-object error when the
constraint name is already in the catalog. -/
lemma add_unique_constraint_of_contains (cat : Catalog) (t : String)
    (h : cat.constraints.contains (t ++ "_unique_constraint") = true) :
    add_unique_constraint cat t =
      .raised ("constraint " ++ (t ++ "_unique_constraint") ++
        " already exists") := by
  unfold add_unique_constraint
  rw [if_pos h]

/-- `add_unique_constraint` succeeds and records the constraint name when it
is not yet in the catalog. -/
lemma add_unique_constraint_of_not_contains (cat : Catalog) (t : String)
    (h : ¬cat.constraints.contains (t ++ "_unique_constraint") = true) :
    add_unique_constraint cat t =
      .ok { cat with constraints :=
        (t ++ "_unique_constraint") :: cat.constraints } := by
  unfold add_unique_constraint
  rw [if_neg h]

/-- Claim C5 (amended): `ensure_pg_table_created` checks existence and
creates only when absent (the DDL is `CREATE TABLE IF NOT EXISTS`, so
creation is idempotent and a second call with no unique columns succeeds
and changes nothing); but when unique columns are requested the unique
constraint is added unconditionally, so a second call with the same
non-empty unique columns raises a duplicate-constraint error instead of
succeeding. -/
theorem C5_ensure_ready_amended (cat cat2 : Catalog) (t : String)
    (l : List String) (hl : l ≠ [])
    (hfirst : ensure_pg_table_created cat t (some l) = .ok cat2) :
    (∀ (c : Catalog) (s : String), c.tables.contains s = true →
      create_postgresql_table c s = c) ∧
    (ensure_pg_table_created cat t none = .ok (ensure_created_catalog cat t) ∧
     ensure_pg_table_created (ensure_created_catalog cat t) t none =
       .ok (ensure_created_catalog cat t)) ∧
    ensure_pg_table_created cat2 t (some l) =
      .raised ("constraint " ++ (t ++ "_unique_constraint") ++
        " already exists") := by
  have htruthy : truthyCols (some l) = true := by
    obtain ⟨c, cs, rfl⟩ := List.exists_cons_of_ne_nil hl
    rfl
  have hidem : ensure_created_catalog (ensure_created_catalog cat t) t =
      ensure_created_catalog cat t :=
    ensure_created_catalog_of_contains _ _ (ensure_created_catalog_contains cat t)
  refine ⟨?_, ⟨rfl, ?_⟩, ?_⟩
  · intro c s hs
    unfold create_postgresql_table
    rw [if_pos hs]
  · show DdlResult.ok (ensure_created_catalog (ensure_created_catalog cat t) t) =
      DdlResult.ok (ensure_created_catalog cat t)
    rw [hidem]
  · rw [ensure_pg_table_created_truthy cat t l htruthy] at hfirst
    rw [ensure_pg_table_created_truthy cat2 t l htruthy]
    by_cases hc : (ensure_created_catalog cat t).constraints.contains
        (t ++ "_unique_constraint") = true
    · rw [add_unique_constraint_of_contains _ _ hc] at hfirst
      exact absurd hfirst (by simp)
    · rw [add_unique_constraint_of_not_contains _ _ hc] at hfirst
      have hcat2 :
          ({ ensure_created_catalog cat t with
             constraints :=
               (t ++ "_unique_constraint") ::
                 (ensure_created_catalog cat t).constraints } : Catalog) =
            cat2 := by
        injection hfirst
      subst hcat2
      have hex : ensure_created_catalog
          { ensure_created_catalog cat t with
            constraints :=
              (t ++ "_unique_constraint") ::
                (ensure_created_catalog cat t).constraints } t =
          { ensure_created_catalog cat t with
            constraints :=
              (t ++ "_unique_constraint") ::
                (ensure_created_catalog cat t).constraints } :=
        ensure_created_catalog_of_contains _ _
          (ensure_created_catalog_contains cat t)
      rw [hex]
      apply add_unique_constraint_of_contains
      simp [List.contains_cons]

/-- Claim C5, witness: the amended theorem evaluated on a catalog that
already holds table `t`, whose first unique-constraint call succeeded. -/
theorem C5_ensure_ready_witness :
    (ensure_pg_table_created ⟨["t"], []⟩ "t" none =
      .ok (ensure_created_catalog ⟨["t"], []⟩ "t") ∧
     ensure_pg_table_created (ensure_created_catalog ⟨["t"], []⟩ "t") "t"
       none = .ok (ensure_created_catalog ⟨["t"], []⟩ "t")) ∧
    ensure_pg_table_created ⟨["t"], ["t_unique_constraint"]⟩ "t"
        (some ["id"]) =
      .raised ("constraint " ++ ("t" ++ "_unique_constraint") ++
        " already exists") :=
  ⟨(C5_ensure_ready_amended ⟨["t"], []⟩ ⟨["t"], ["t_unique_constraint"]⟩
      "t" ["id"] (by decide) (by decide)).2.1,
   (C5_ensure_ready_amended ⟨["t"], []⟩ ⟨["t"], ["t_unique_constraint"]⟩
      "t" ["id"] (by decide) (by decide)).2.2⟩

/-- Membership in the accumulator is preserved by the preparation fold. -/
lemma create_pg_tables_mem_acc (prepOk : String → Bool) (t : String) :
    ∀ (tables acc : List String), t ∈ acc →
      t ∈ create_pg_tables prepOk tables acc := by
  intro tables
  induction tables with
  | nil => intro acc h; exact h
  | cons a rest ih =>
    intro acc h
    unfold create_pg_tables at ih ⊢
    rw [List.foldl_cons]
    by_cases hp : prepOk a = true
    · rw [if_pos hp]
      exact ih acc h
    · rw [if_neg hp]
      exact ih (acc ++ [a]) (List.mem_append_left _ h)

/-- Every submitted table whose preparation fails ends up in the failure
list built by `create_pg_tables`. -/
lemma create_pg_tables_mem (prepOk : String → Bool) (t : String) :
    ∀ (tables acc : List String), t ∈ tables → prepOk t = false →
      t ∈ create_pg_tables prepOk tables acc := by
  intro tables
  induction tables with
  | nil => intro acc h; exact absurd h (List.not_mem_nil t)
  | cons a rest ih =>
    intro acc h hfail
    unfold create_pg_tables at ih ⊢
    rw [List.foldl_cons]
    rcases List.mem_cons.mp h with rfl | hmem
    · rw [if_neg (by rw [hfail]; exact Bool.false_ne_true)]
      exact create_pg_tables_mem_acc prepOk t rest (acc ++ [t])
        (List.mem_append_right _ (List.mem_singleton.mpr rfl))
    · by_cases hp : prepOk a = true
      · rw [if_pos hp]
        exact ih acc hmem hfail
      · rw [if_neg hp]
        exact ih (acc ++ [a]) hmem hfail

/-- The migration-phase fold attempts a merge for every submitted table:
its attempt trace is the accumulator followed by the whole table list. -/
lemma migration_phase_attempts_aux (mergeOk : String → Bool) :
    ∀ (tables : List String) (failed att : List String),
      (tables.foldl
        (fun acc t => migrate_single_table mergeOk acc.1 acc.2 t)
        (failed, att)).2 = att ++ tables := by
  intro tables
  induction tables with
  | nil => intro failed att; simp
  | cons a rest ih =>
    intro failed att
    rw [List.foldl_cons]
    show (List.foldl
      (fun acc t => migrate_single_table mergeOk acc.1 acc.2 t)
      (migrate_single_table mergeOk failed att a) rest).2 = att ++ a :: rest
    by_cases hm : mergeOk a = true
    · have h1 : migrate_single_table mergeOk failed att a =
          (failed, att ++ [a]) := by
        unfold migrate_single_table
        rw [if_pos hm]
      rw [h1, ih]
      simp
    · have h1 : migrate_single_table mergeOk failed att a =
          (failed ++ [a], att ++ [a]) := by
        unfold migrate_single_table
        rw [if_neg hm]
      rw [h1, ih]
      simp

/-- Claim C3, counterexample: with a single table whose preparation fails,
the table is recorded in the failure list after phase 1, yet the migration
phase still attempts its merge (and, the merge failing too, appends it to
the failure list a second time) — contradicting "a merge is never attempted
for a table whose own preparation did not succeed". -/
theorem C3_counterexample :
    (multi_threaded_migration_phases (fun _ => false) (fun _ => false)
      ["a"]).1 = ["a"] ∧
    (multi_threaded_migration_phases (fun _ => false) (fun _ => false)
      ["a"]).2.2 = ["a"] ∧
    (multi_threaded_migration_phases (fun _ => false) (fun _ => false)
      ["a"]).2.1 = ["a", "a"] := by
  decide

/-- Claim C3 (amended): every table whose phase-1 preparation fails is
recorded in the shared failure list, but it is not excluded from the
migration phase — the scheduler submits a merge task for every table of the
input list, preparation failure notwithstanding. -/
theorem C3_scheduler_amended (tables : List String)
    (prepOk mergeOk : String → Bool) (t : String)
    (ht : t ∈ tables) (hp : prepOk t = false) :
    t ∈ (multi_threaded_migration_phases prepOk mergeOk tables).1 ∧
    (multi_threaded_migration_phases prepOk mergeOk tables).2.2 = tables := by
  constructor
  · exact create_pg_tables_mem prepOk t tables [] ht hp
  · show (migration_phase mergeOk tables
      (create_pg_tables prepOk tables [])).2 = tables
    unfold migration_phase
    rw [migration_phase_attempts_aux]
    simp

/-- Claim C3, witness: the amended theorem evaluated on two tables of which
`a` fails preparation. -/
theorem C3_scheduler_witness :
    "a" ∈ (multi_threaded_migration_phases (fun s => s == "b")
      (fun _ => true) ["a", "b"]).1 ∧
    (multi_threaded_migration_phases (fun s => s == "b") (fun _ => true)
      ["a", "b"]).2.2 = ["a", "b"] :=
  C3_scheduler_amended ["a", "b"] (fun s => s == "b") (fun _ => true) "a"
    (by decide) (by decide)

/-- Shifting the start index through `List.range`: the indices attempted
from `start` in `n + 1` steps are `start` followed by the indices attempted
from `start + 1` in `n` steps. -/
lemma range_map_add (start n : ℕ) :
    (List.range (n + 1)).map (start + ·) =
      start :: (List.range n).map ((start + 1) + ·) := by
  rw [List.range_succ_eq_map, List.map_cons, List.map_map]
  have hf : ((start + ·) ∘ Nat.succ) = ((start + 1) + ·) := by
    funext m
    simp [Function.comp]
    omega
  rw [hf]
  simp

/-- The batch loop run from index `start`, when the first failure among the
remaining batches happens at relative position `i`: the earlier batches are
committed in order, every batch up to and including the failing one was
executed exactly once, the exception propagates, and the error log names
the source table. -/
lemma runBatchLoop_fail_spec (table : String) (failAt : ℕ → Bool) :
    ∀ (bats : List (List α)) (i start : ℕ) (committed : List (List α))
      (attempted : List ℕ),
      i < bats.length →
      (∀ j, j < i → failAt (start + j) = false) →
      failAt (start + i) = true →
      runBatchLoop table failAt bats start committed attempted =
        { committed := committed ++ bats.take i,
          attempted := attempted ++ (List.range (i + 1)).map (start + ·),
          result := .raised (start + i),
          errorLoggedTable := some table } := by
  intro bats
  induction bats with
  | nil =>
    intro i start committed attempted hi
    exact absurd hi (by simp)
  | cons b rest ih =>
    intro i start committed attempted hi hprev hfail
    match i with
    | 0 =>
      have h0 : failAt start = true := by simpa using hfail
      unfold runBatchLoop
      rw [if_pos h0]
      simp [List.range_succ]
    | Nat.succ k =>
      have h0 : failAt start = false := by
        have := hprev 0 (Nat.succ_pos k)
        simpa using this
      unfold runBatchLoop
      rw [if_neg (by rw [h0]; exact Bool.false_ne_true)]
      rw [ih k (start + 1) (committed ++ [b]) (attempted ++ [start])
        (by simpa using hi)
        (fun j hj => by
          have := hprev (j + 1) (by omega)
          rw [show start + 1 + j = start + (j + 1) by omega]
          exact this)
        (by rw [show start + 1 + k = start + (k + 1) by omega]; exact hfail)]
      rw [range_map_add start (k + 1)]
      simp [List.take_succ_cons]
      omega

/-- Claim C2: when every batch before index `i` succeeds and batch `i`
fails, `merge_and_update_data` leaves exactly batches `0..i-1` committed
(each was committed individually before the failure and is untouched by
the rollback of the current batch), executed each batch `0..i` exactly once
in order with no retry, propagated the failure, and logged it naming the
table. -/
theorem C2_batch_failure_durability (table : String) (rows : List α)
    (batch_size : ℕ) (failAt : ℕ → Bool) (i : ℕ)
    (hi : i < (chunkRows batch_size rows).length)
    (hprev : ∀ j, j < i → failAt j = false)
    (hfail : failAt i = true) :
    merge_and_update_data table rows batch_size failAt =
      { committed := (chunkRows batch_size rows).take i,
        attempted := List.range (i + 1),
        result := .raised i,
        errorLoggedTable := some table } := by
  match rows with
  | [] =>
    simp [chunkRows] at hi
  | r :: rs =>
    show runBatchLoop table failAt (chunkRows batch_size (r :: rs)) 0 [] [] = _
    rw [runBatchLoop_fail_spec table failAt (chunkRows batch_size (r :: rs))
      i 0 [] [] hi (fun j hj => by simpa using hprev j hj) (by simpa using hfail)]
    have hmap : (List.range (i + 1)).map (0 + ·) = List.range (i + 1) := by
      have : ((0 + ·) : ℕ → ℕ) = id := by
        funext m
        simp
      rw [this, List.map_id]
    simp [hmap]

/-- Claim C2, witness: five rows in batches of two, with the second batch
failing — the first batch stays committed, both executed once, the failure
propagated and logged for table `t`. -/
theorem C2_batch_failure_witness :
    merge_and_update_data "t" [1, 2, 3, 4, 5] 2 (fun j => j == 1) =
      { committed := [[1, 2]], attempted := [0, 1],
        result := .raised 1, errorLoggedTable := some "t" } := by
  rw [C2_batch_failure_durability "t" [1, 2, 3, 4, 5] 2 (fun j => j == 1) 1
    (by simp [chunkRows])
    (fun j hj => by
      match j, hj with
      | 0, _ => rfl)
    rfl]
  simp [chunkRows, List.range_succ]

/-- Concatenating the slices of a positive batch size gives back the rows:
no row is duplicated or dropped, and the slices are consecutive. -/
lemma chunkRows_flatten (batch_size : ℕ) (hbs : 0 < batch_size) :
    ∀ rows : List α, (chunkRows batch_size rows).flatten = rows := by
  have haux : ∀ (n : ℕ) (rows : List α), rows.length ≤ n →
      (chunkRows batch_size rows).flatten = rows := by
    intro n
    induction n with
    | zero =>
      intro rows h
      rw [List.eq_nil_of_length_eq_zero (Nat.le_zero.mp h)]
      simp [chunkRows]
    | succ n ihn =>
      intro rows h
      match rows with
      | [] => simp [chunkRows]
      | a :: l =>
        rw [chunkRows]
        rw [dif_neg (Nat.pos_iff_ne_zero.mp hbs)]
        rw [List.flatten_cons]
        rw [ihn ((a :: l).drop batch_size) (by simp only [List.length_drop, List.length_cons] at h ⊢; omega)]
        exact List.take_append_drop _ _
  intro rows
  exact haux rows.length rows le_rfl

/-- Every slice of a positive batch size is non-empty and no longer than
the batch size. -/
lemma chunkRows_sizes (batch_size : ℕ) (hbs : 0 < batch_size) :
    ∀ rows : List α, ∀ b ∈ chunkRows batch_size rows,
      b ≠ [] ∧ b.length ≤ batch_size := by
  have haux : ∀ (n : ℕ) (rows : List α), rows.length ≤ n →
      ∀ b ∈ chunkRows batch_size rows, b ≠ [] ∧ b.length ≤ batch_size := by
    intro n
    induction n with
    | zero =>
      intro rows h
      rw [List.eq_nil_of_length_eq_zero (Nat.le_zero.mp h)]
      simp [chunkRows]
    | succ n ihn =>
      intro rows h b hb
      match rows with
      | [] => simp [chunkRows] at hb
      | a :: l =>
        rw [chunkRows, dif_neg (Nat.pos_iff_ne_zero.mp hbs)] at hb
        rcases List.mem_cons.mp hb with rfl | hmem
        · constructor
          · match batch_size, hbs with
            | Nat.succ m, _ => simp [List.take_succ_cons]
          · rw [List.length_take]
            exact min_le_left _ _
        · exact ihn ((a :: l).drop batch_size) (by simp only [List.length_drop, List.length_cons] at h ⊢; omega) b hmem
  intro rows
  exact haux rows.length rows le_rfl

/-- `chunkRows` of a non-empty list is non-empty (positive batch size). -/
lemma chunkRows_ne_nil (batch_size : ℕ) (hbs : 0 < batch_size) (a : α)
    (l : List α) : chunkRows batch_size (a :: l) ≠ [] := by
  rw [chunkRows, dif_neg (Nat.pos_iff_ne_zero.mp hbs)]
  exact List.cons_ne_nil _ _

/-- Every slice except possibly the last has length exactly the batch
size. -/
lemma chunkRows_dropLast (batch_size : ℕ) (hbs : 0 < batch_size) :
    ∀ rows : List α, ∀ b ∈ (chunkRows batch_size rows).dropLast,
      b.length = batch_size := by
  have haux : ∀ (n : ℕ) (rows : List α), rows.length ≤ n →
      ∀ b ∈ (chunkRows batch_size rows).dropLast,
        b.length = batch_size := by
    intro n
    induction n with
    | zero =>
      intro rows h
      rw [List.eq_nil_of_length_eq_zero (Nat.le_zero.mp h)]
      simp [chunkRows]
    | succ n ihn =>
      intro rows h b hb
      match rows with
      | [] => simp [chunkRows] at hb
      | a :: l =>
        rw [chunkRows, dif_neg (Nat.pos_iff_ne_zero.mp hbs)] at hb
        cases hdrop : (a :: l).drop batch_size with
        | nil =>
          rw [hdrop] at hb
          simp [chunkRows] at hb
        | cons d ds =>
          rw [hdrop] at hb
          rw [List.dropLast_cons_of_ne_nil
            (hdrop ▸ chunkRows_ne_nil batch_size hbs d ds)] at hb
          rcases List.mem_cons.mp hb with rfl | hmem
          · have hlen : batch_size < (a :: l).length := by
              by_contra hcon
              have : (a :: l).drop batch_size = [] :=
                List.drop_eq_nil_iff.mpr (by omega)
              rw [this] at hdrop
              exact List.noConfusion hdrop
            rw [List.length_take]
            omega
          · have := ihn ((a :: l).drop batch_size) (by simp only [List.length_drop, List.length_cons] at h ⊢; omega) b
            rw [hdrop] at this
            exact this hmem
  intro rows
  exact haux rows.length rows le_rfl

/-- Claim C8: a merge over an empty source returns success having executed
and committed nothing; over any source rows with a positive batch size, the
batching step partitions the rows into consecutive slices — flattening the
slices restores the row list exactly, every slice is non-empty and at most
`batch_size` long, and every slice but the last is exactly `batch_size`
long — so each source row lands in exactly one batch. -/
theorem C8_merge_batching (batch_size : ℕ) (hbs : 0 < batch_size)
    (rows : List α) :
    (∀ (table : String) (failAt : ℕ → Bool),
      merge_and_update_data table ([] : List α) batch_size failAt =
        { committed := [], attempted := [], result := .ok,
          errorLoggedTable := none }) ∧
    (chunkRows batch_size rows).flatten = rows ∧
    (∀ b ∈ chunkRows batch_size rows, b ≠ [] ∧ b.length ≤ batch_size) ∧
    (∀ b ∈ (chunkRows batch_size rows).dropLast, b.length = batch_size) :=
  ⟨fun _ _ => rfl,
   chunkRows_flatten batch_size hbs rows,
   chunkRows_sizes batch_size hbs rows,
   chunkRows_dropLast batch_size hbs rows⟩

/-- Claim C8, witness: batch size 2 over three rows — two slices `[1, 2]`
and `[3]`, flattening back to the rows, and the empty-source merge doing
nothing. -/
theorem C8_merge_batching_witness :
    merge_and_update_data "t" ([] : List ℕ) 2 (fun _ => false) =
      { committed := [], attempted := [], result := .ok,
        errorLoggedTable := none } ∧
    (chunkRows 2 [1, 2, 3]).flatten = [1, 2, 3] :=
  ⟨(C8_merge_batching 2 (by norm_num) ([1, 2, 3] : List ℕ)).1 "t"
      (fun _ => false),
   (C8_merge_batching 2 (by norm_num) ([1, 2, 3] : List ℕ)).2.1⟩

/-- The pattern literals are already lower-case, so the case-insensitive
match of a literal against itself plus any suffix succeeds. -/
lemma ciStartsWith_self_append (patt l : List Char)
    (h : ∀ c ∈ patt, c.toLower = c) :
    ciStartsWith (patt ++ l) patt = true := by
  induction patt with
  | nil =>
    rw [List.nil_append]
    cases l <;> rfl
  | cons p ps ih =>
    rw [List.cons_append]
    unfold ciStartsWith
    rw [h p (List.mem_cons_self p ps), beq_self_eq_true, Bool.true_and]
    exact ih (fun c hc => h c (List.mem_cons_of_mem p hc))

/-- The non-greedy group scan consumes non-quote, non-newline characters
one at a time and stops at the first quote followed by the
` does not exist` literal, returning exactly the consumed group. -/
lemma findGroup_exact (X : List Char) (q : Char) (tail : List Char)
    (hq : isQuoteChar q = true)
    (hX : ∀ c ∈ X, isQuoteChar c = false ∧ c ≠ newlineChar)
    (htail : ciStartsWith tail DNE_LIT = true) :
    findGroup (X ++ q :: tail) = some X := by
  induction X with
  | nil =>
    rw [List.nil_append]
    simp [findGroup, hq, htail]
  | cons c cs ih =>
    have hc := hX c (List.mem_cons_self c cs)
    rw [List.cons_append]
    simp [findGroup, hc.1, hc.2,
      ih (fun d hd => hX d (List.mem_cons_of_mem c hd))]

/-- The full pattern matches at the head of
`column "X" does not exist ++ rest`, with group exactly `X`, when `X` holds
no quote and no newline. -/
lemma matchAt_core (X rest : List Char)
    (hX : ∀ c ∈ X, isQuoteChar c = false ∧ c ≠ newlineChar) :
    matchAt (COLUMN_LIT ++ dquote :: (X ++ dquote :: (DNE_LIT ++ rest))) =
      some X := by
  have hlow : ∀ c ∈ COLUMN_LIT, c.toLower = c := by decide
  have hci := ciStartsWith_self_append COLUMN_LIT
    (dquote :: (X ++ dquote :: (DNE_LIT ++ rest))) hlow
  unfold matchAt
  rw [if_pos hci]
  have hdrop : (COLUMN_LIT ++
      dquote :: (X ++ dquote :: (DNE_LIT ++ rest))).drop 7 =
      dquote :: (X ++ dquote :: (DNE_LIT ++ rest)) := by
    rw [show (7 : ℕ) = COLUMN_LIT.length from by decide, List.drop_left]
  rw [hdrop]
  show (if isQuoteChar dquote = true then
    findGroup (X ++ dquote :: (DNE_LIT ++ rest)) else none) = some X
  rw [if_pos (by decide : isQuoteChar dquote = true)]
  exact findGroup_exact X dquote (DNE_LIT ++ rest)
    (by decide) hX
    (ciStartsWith_self_append DNE_LIT rest (by decide))

/-- A position whose character cannot open the `column ` literal fails
to match. -/
lemma matchAt_not_c (c : Char) (cs : List Char) (hc : c.toLower ≠ 'c') :
    matchAt (c :: cs) = none := by
  have hci : ciStartsWith (c :: cs) COLUMN_LIT = false := by
    rw [show COLUMN_LIT = 'c' :: "olumn ".toList from by decide]
    unfold ciStartsWith
    rw [beq_eq_false_iff_ne.mpr hc, Bool.false_and]
  unfold matchAt
  rw [hci]
  rw [if_neg Bool.false_ne_true]

/-- A successful head match short-circuits the left-to-right search. -/
lemma search_of_matchAt (l g : List Char) (hl : l ≠ [])
    (h : matchAt l = some g) : searchMissingColumn l = some g := by
  match l, hl with
  | c :: cs, _ =>
    unfold searchMissingColumn
    rw [h]

/-- A failing head match moves the search one position to the right. -/
lemma search_step_none (c : Char) (cs : List Char)
    (h : matchAt (c :: cs) = none) :
    searchMissingColumn (c :: cs) = searchMissingColumn cs := by
  have hstep : searchMissingColumn (c :: cs) =
      match matchAt (c :: cs) with
      | some g => some g
      | none => searchMissingColumn cs := rfl
  rw [hstep, h]

/-- A prefix free of the letter `c` (in either case) cannot start a match,
so the search skips it entirely. -/
lemma search_skip_pre (pre l : List Char)
    (hpre : ∀ c ∈ pre, c.toLower ≠ 'c') :
    searchMissingColumn (pre ++ l) = searchMissingColumn l := by
  induction pre with
  | nil => rfl
  | cons c cs ih =>
    rw [List.cons_append]
    rw [search_step_none c (cs ++ l)
      (matchAt_not_c c (cs ++ l) (hpre c (List.mem_cons_self c cs)))]
    exact ih (fun d hd => hpre d (List.mem_cons_of_mem c hd))

/-- When no suffix of the message matches the pattern, the search finds
nothing. -/
lemma search_none (l : List Char)
    (h : ∀ p, matchAt (l.drop p) = none) :
    searchMissingColumn l = none := by
  induction l with
  | nil => rfl
  | cons c cs ih =>
    rw [search_step_none c cs (by have := h 0; simpa using this)]
    exact ih (fun p => by
      have := h (p + 1)
      simpa [List.drop_succ_cons] using this)

/-- Claim C9: for a message whose text before the pattern holds no letter
`c` and whose quoted identifier `X` holds no quote and no newline, the
extraction returns exactly `X`, and `handle_missing_column` fetches that
column's source definition and issues exactly one addColumn for it; for a
message in which no position matches the pattern, nothing is extracted and
no column is added. -/
theorem C9_missing_column_extraction (pre X rest : List Char)
    (src : List MySQLColumn) (info : MySQLColumn)
    (hpre : ∀ c ∈ pre, c.toLower ≠ 'c')
    (hX : ∀ c ∈ X, isQuoteChar c = false ∧ c ≠ newlineChar)
    (hfetch : fetch_column_info src (String.mk X) = some info) :
    (extract_missing_column_from_error
        (String.mk (pre ++ (COLUMN_LIT ++
          dquote :: (X ++ dquote :: (DNE_LIT ++ rest))))) =
      some (String.mk X) ∧
     handle_missing_column src
        (String.mk (pre ++ (COLUMN_LIT ++
          dquote :: (X ++ dquote :: (DNE_LIT ++ rest))))) =
      [ColumnAction.addColumn info]) ∧
    (∀ (msg : String) (src2 : List MySQLColumn),
      (∀ p, matchAt (msg.toList.drop p) = none) →
      extract_missing_column_from_error msg = none ∧
      handle_missing_column src2 msg = []) := by
  have hsearch : searchMissingColumn (pre ++ (COLUMN_LIT ++
      dquote :: (X ++ dquote :: (DNE_LIT ++ rest)))) = some X := by
    rw [search_skip_pre pre _ hpre]
    exact search_of_matchAt _ X
      (by
        rw [show COLUMN_LIT = 'c' :: "olumn ".toList from by decide]
        exact List.cons_ne_nil _ _)
      (matchAt_core X rest hX)
  have hext : extract_missing_column_from_error
      (String.mk (pre ++ (COLUMN_LIT ++
        dquote :: (X ++ dquote :: (DNE_LIT ++ rest))))) =
      some (String.mk X) := by
    unfold extract_missing_column_from_error
    rw [show (String.mk (pre ++ (COLUMN_LIT ++
      dquote :: (X ++ dquote :: (DNE_LIT ++ rest))))).toList =
      pre ++ (COLUMN_LIT ++ dquote :: (X ++ dquote :: (DNE_LIT ++ rest)))
      from rfl]
    rw [hsearch]
    rfl
  refine ⟨⟨hext, ?_⟩, ?_⟩
  · unfold handle_missing_column
    rw [hext]
    show (match fetch_column_info src (String.mk X) with
      | some column_info => [ColumnAction.addColumn column_info]
      | none => []) = [ColumnAction.addColumn info]
    rw [hfetch]
  · intro msg src2 hm
    have hs : searchMissingColumn msg.toList = none := search_none _ hm
    have hextn : extract_missing_column_from_error msg = none := by
      unfold extract_missing_column_from_error
      rw [hs]
      rfl
    constructor
    · exact hextn
    · unfold handle_missing_column
      rw [hextn]

/-- Claim C9, witness: the end-to-end message of the spec scenario — the
column `region` is extracted and its source definition added. -/
theorem C9_missing_column_witness :
    extract_missing_column_from_error
      "ERROR: column \"region\" does not exist" = some "region" ∧
    handle_missing_column
      [{ name := "region", colType := "varchar(100)", nullable := true,
         defaultVal := none }]
      "ERROR: column \"region\" does not exist" =
      [ColumnAction.addColumn
        { name := "region", colType := "varchar(100)", nullable := true,
          defaultVal := none }] := by
  have h := (C9_missing_column_extraction "ERROR: ".toList "region".toList []
    [{ name := "region", colType := "varchar(100)", nullable := true,
       defaultVal := none }]
    { name := "region", colType := "varchar(100)", nullable := true,
      defaultVal := none }
    (by decide) (by decide) (by decide)).1
  have hs : String.mk ("ERROR: ".toList ++ (COLUMN_LIT ++
      dquote :: ("region".toList ++ dquote :: (DNE_LIT ++ [])))) =
      "ERROR: column \"region\" does not exist" := by decide
  rw [hs] at h
  exact h

/-- Claim C10: whenever the chosen remediation action raises an error, the
advisor logs it with the table and schema context and re-raises the same
error to its caller; and whenever the advisor returns normally from a
chosen action, that action raised nothing — no execution path catches an
error and returns normally. -/
theorem C10_advisor_surfaces_errors (table_name schema_name : String)
    (choice : Fin 5) (handler : Fin 5 → Option String) (e : String)
    (hnot3 : choice.val ≠ 3) (herr : handler choice = some e) :
    resolve_error_based_on_choice table_name schema_name (some choice)
        handler =
      ([LogEntry.resolutionFailed table_name schema_name e], .raised e) ∧
    ∀ (choice2 : Fin 5) (handler2 : Fin 5 → Option String),
      (resolve_error_based_on_choice table_name schema_name (some choice2)
        handler2).2 = .returned →
      runChoice choice2 handler2 = none := by
  constructor
  · have hrun : runChoice choice handler = some e := by
      unfold runChoice
      rw [if_neg hnot3]
      exact herr
    show (match runChoice choice handler with
      | none => (([] : List LogEntry), ResolveOutcome.returned)
      | some e =>
        ([LogEntry.resolutionFailed table_name schema_name e],
          ResolveOutcome.raised e)) =
      ([LogEntry.resolutionFailed table_name schema_name e],
        ResolveOutcome.raised e)
    rw [hrun]
  · intro choice2 handler2 hret
    have hret2 : (match runChoice choice2 handler2 with
      | none => (([] : List LogEntry), ResolveOutcome.returned)
      | some e =>
        ([LogEntry.resolutionFailed table_name schema_name e],
          ResolveOutcome.raised e)).2 = ResolveOutcome.returned := hret
    cases hrc : runChoice choice2 handler2 with
    | none => rfl
    | some e2 =>
      rw [hrc] at hret2
      exact absurd hret2 (by simp)

/-- Claim C10, witness: choice 1 (add the missing column) whose handler
raises `boom` — the advisor logs it for table `t` in schema `public` and
re-raises `boom`. -/
theorem C10_advisor_witness :
    resolve_error_based_on_choice "t" "public" (some 1)
        (fun _ => some "boom") =
      ([LogEntry.resolutionFailed "t" "public" "boom"], .raised "boom") :=
  (C10_advisor_surfaces_errors "t" "public" 1 (fun _ => some "boom") "boom"
    (by decide) rfl).1

end Migration
